import Mathlib

/-!
Shallow embedding of the multi-head self-attention block of
`from_scratch_transformer/multihead_attention.py`.

Tensors are real matrices indexed by their static shapes.  The block
(`MultiHeadAttention`) is a state record `MHA H dk T` threaded explicitly
through `mha_forward`, `mha_backward`, `mha_step` and `mha_clear_grad`;
its model width is `d_model = H * dk` with `num_heads = H` heads of width
`d_k = dk`, used at sequence length `T`.

The Python masking value `float(-inf)` is modelled by `⊥ : WithBot ℝ`,
with `expExt ⊥ = 0` reproducing `exp(-inf) = 0` inside the softmax.
Cache fields that start as Python `None` are `Option`-typed, and the
operations that dereference a still-unset cache return `Option.none`
(modelling the raised `AttributeError`/`TypeError`).

The collaborator layers `Input`, `Linear` and `Concat` live in
`from_scratch_transformer/layers.py`, which is not part of the sources;
every definition that embeds one of them carries a doc comment starting
with `Modelled from the spec:` and follows the spec text (sections 3, 4.7
and 6 and the glossary).
-/

set_option maxHeartbeats 1000000

open scoped Matrix

abbrev Mat (m n : ℕ) : Type := Matrix (Fin m) (Fin n) ℝ

abbrev Heads (H T dk : ℕ) : Type := Fin H → Mat T dk

/-- Modelled from the spec: the `Input` parameter container of the missing
`layers.py` — "a mutable tensor with an associated gradient accumulator
(same shape, initialized to none/zero) and an in-place update rule
`value -= lr * grad`" (spec section 3). -/
structure Param (r c : ℕ) where
  value : Mat r c
  grad : Mat r c

/-- Modelled from the spec: the mutable per-projection state of the missing
`Linear` layer of `layers.py` — it "binds an input reference, a weight
Parameter, a bias Parameter, and produces/caches an output tensor" (spec
section 3) and has "a settable `grad` field used as an override hook"
(spec section 6).  The weight and the bias are not stored here: in the
source they alias the block fields (`Linear(X=None, W=self.W_q, b=self.b_q)`),
so the block record below is their single storage. -/
structure LinState (T D : ℕ) where
  X : Option (Mat T D)
  output : Option (Mat T D)
  grad : Mat T D

/-- Modelled from the spec: the `Concat` adapter of the missing `layers.py`
— it joins the per-head `Input` layers along the feature axis and on
backward "fans a single incoming gradient back out to each source layer's
own `grad` field" (spec section 6), exposing a `layers_list` accessor. -/
structure ConcatState (H dk T : ℕ) where
  layers_list : Fin H → Param T dk
  output : Mat T (H * dk)
  grad : Mat T (H * dk)

/-- The `MultiHeadAttention` block state (`__init__`, lines 11–39).
The eight learnable Parameters, the four projection wrappers (whose
weight/bias alias the Parameters), the cached forward state
(`qh, kh, vh, attn, mask, concat`) and the gradient accumulator of the
externally bound input layer (`x_layer.grad`, shared by the q/k/v
projections). -/
structure MHA (H dk T : ℕ) where
  W_q : Param (H * dk) (H * dk)
  b_q : Param 1 (H * dk)
  W_k : Param (H * dk) (H * dk)
  b_k : Param 1 (H * dk)
  W_v : Param (H * dk) (H * dk)
  b_v : Param 1 (H * dk)
  W_o : Param (H * dk) (H * dk)
  b_o : Param 1 (H * dk)
  linear_q : LinState T (H * dk)
  linear_k : LinState T (H * dk)
  linear_v : LinState T (H * dk)
  linear_out : LinState T (H * dk)
  qh : Option (Heads H T dk)
  kh : Option (Heads H T dk)
  vh : Option (Heads H T dk)
  attn : Option (Fin H → Mat T T)
  mask : Option (Mat T T)
  concat : Option (ConcatState H dk T)
  x_grad : Mat T (H * dk)

/-- The `d_model` configuration value of a block (fixed at construction). -/
def mhaDModel {H dk T : ℕ} (_ : MHA H dk T) : ℕ := H * dk

/-- The `num_heads` configuration value of a block (fixed at construction). -/
def mhaNumHeads {H dk T : ℕ} (_ : MHA H dk T) : ℕ := H

/-- The `d_k` configuration value of a block (fixed at construction). -/
def mhaDK {H dk T : ℕ} (_ : MHA H dk T) : ℕ := dk

/-- Row count of a matrix (its first shape component). -/
def matRows {m n : ℕ} (_ : Mat m n) : ℕ := m

/-- Column count of a matrix (its second shape component). -/
def matCols {m n : ℕ} (_ : Mat m n) : ℕ := n

/-- Shape of a stacked `num_heads × T × T` attention-weight tensor. -/
def attnShape {H T : ℕ} (_ : Fin H → Mat T T) : ℕ × ℕ × ℕ := (H, T, T)

/-- `__init__` lines 11–15: `assert d_model % num_heads == 0` (`none` models
the assertion failure), then `self.d_k = d_model // num_heads`. -/
def initCheck (d_model num_heads : ℕ) : Option ℕ :=
  if d_model % num_heads = 0 then some (d_model / num_heads) else none

/-- `__init__` lines 17–39: allocate the 8 Parameters (the `randomize()`d
initial values are taken as arguments, gradients start at zero), bind the 4
projection wrappers with `X=None`, and set every cached forward-state field
to `None`. -/
noncomputable def initMHA (H dk T : ℕ)
    (wq wk wv wo : Mat (H * dk) (H * dk)) (bq bk bv bo : Mat 1 (H * dk)) :
    MHA H dk T :=
  { W_q := ⟨wq, 0⟩
    b_q := ⟨bq, 0⟩
    W_k := ⟨wk, 0⟩
    b_k := ⟨bk, 0⟩
    W_v := ⟨wv, 0⟩
    b_v := ⟨bv, 0⟩
    W_o := ⟨wo, 0⟩
    b_o := ⟨bo, 0⟩
    linear_q := ⟨none, none, 0⟩
    linear_k := ⟨none, none, 0⟩
    linear_v := ⟨none, none, 0⟩
    linear_out := ⟨none, none, 0⟩
    qh := none
    kh := none
    vh := none
    attn := none
    mask := none
    concat := none
    x_grad := 0 }

/-- Modelled from the spec: `Linear.forward` of the missing `layers.py` —
"an affine transform `y = xW + b`" (spec glossary), the `1 × D` bias row
broadcast over the `T` rows. -/
noncomputable def linForward {T D : ℕ} (X : Mat T D) (W : Mat D D) (b : Mat 1 D) :
    Mat T D :=
  fun i j => (X * W) i j + b 0 j

/-- Column sums of a `T × D` gradient, as a `1 × D` row: the gradient of the
broadcast bias in `Linear.backward` (Modelled from the spec, section 6). -/
noncomputable def colSum {T D : ℕ} (g : Mat T D) : Mat 1 D :=
  fun _ j => ∑ i, g i j

/-- `split_heads` (lines 41–47): `x.view(T, num_heads, d_k).transpose(0, 1)`;
entry `(h, t, k)` of the result is entry `(t, h * d_k + k)` of `x`. -/
def split_heads {H dk T : ℕ} (x : Mat T (H * dk)) : Heads H T dk :=
  fun h t k => x t ⟨h.val * dk + k.val, by
    have hk := k.isLt
    have hh := h.isLt
    calc h.val * dk + k.val < h.val * dk + dk := by omega
      _ = (h.val + 1) * dk := by ring
      _ ≤ H * dk := Nat.mul_le_mul_right dk hh⟩

/-- `combine_heads` (lines 49–55):
`x.transpose(0, 1).contiguous().view(T, d_model)`; entry `(t, j)` of the
result is entry `(j / d_k, t, j % d_k)` of `x`. -/
def combine_heads {H dk T : ℕ} (x : Heads H T dk) : Mat T (H * dk) :=
  fun t j =>
    x ⟨j.val / dk, by
        have hj := j.isLt
        have hdk : 0 < dk := by
          rcases Nat.eq_zero_or_pos dk with h0 | h0
          · exfalso
            have hz : H * dk = 0 := by rw [h0, Nat.mul_zero]
            omega
          · exact h0
        exact (Nat.div_lt_iff_lt_mul hdk).mpr hj⟩
      t
      ⟨j.val % dk, Nat.mod_lt _ (by
        have hj := j.isLt
        rcases Nat.eq_zero_or_pos dk with h0 | h0
        · exfalso
          have hz : H * dk = 0 := by rw [h0, Nat.mul_zero]
          omega
        · exact h0)⟩

/-- `exp` extended to the score domain `ℝ ∪ {-inf}`: `exp(-inf) = 0`. -/
noncomputable def expExt (v : WithBot ℝ) : ℝ := WithBot.recBotCoe 0 Real.exp v

/-- `torch.softmax(·, dim=-1)` on one row of (possibly `-inf`) scores. -/
noncomputable def softmaxRow {n : ℕ} (v : Fin n → WithBot ℝ) : Fin n → ℝ :=
  fun j => expExt (v j) / ∑ l, expExt (v l)

/-- Line 62: `scores = (q @ k.transpose(-2, -1)) / math.sqrt(self.d_k)`. -/
noncomputable def attnScores {H T dk : ℕ} (q k : Heads H T dk) : Fin H → Mat T T :=
  fun h i j => (q h * (k h)ᵀ) i j / Real.sqrt (dk : ℝ)

/-- Lines 63–64: `scores.masked_fill(mask == 0, float(-inf))` when a mask is
supplied; `⊥` models the negative infinity written into masked positions. -/
noncomputable def maskScoresNegInf {H T : ℕ} (mask : Option (Mat T T))
    (sc : Fin H → Mat T T) : Fin H → Fin T → Fin T → WithBot ℝ :=
  match mask with
  | none => fun h i j => ((sc h i j : ℝ) : WithBot ℝ)
  | some m => fun h i j =>
      if m i j = 0 then (⊥ : WithBot ℝ) else ((sc h i j : ℝ) : WithBot ℝ)

/-- `scaled_dot_product_attention` (lines 57–67): scaled scores, optional
mask fill with `-inf`, softmax along the last (key) axis, and the returned
pair `(attn @ v, attn)`. -/
noncomputable def scaled_dot_product_attention {H T dk : ℕ}
    (q k v : Heads H T dk) (mask : Option (Mat T T)) :
    Heads H T dk × (Fin H → Mat T T) :=
  let masked := maskScoresNegInf mask (attnScores q k)
  let attn : Fin H → Mat T T := fun h i j => softmaxRow (masked h i) j
  (fun h => attn h * v h, attn)

/-- `forward` (lines 69–102): run the q/k/v projections on the same input,
split into heads, run scaled dot-product attention, wrap each head output
in a fresh `Input` layer, concatenate along the feature axis, run the
output projection, cache `qh, kh, vh, attn, mask, concat` and the four
projections' bound inputs and outputs, and return the output value and the
attention weights. -/
noncomputable def mha_forward {H dk T : ℕ} (s : MHA H dk T) (x : Mat T (H * dk))
    (mask : Option (Mat T T)) :
    MHA H dk T × Mat T (H * dk) × (Fin H → Mat T T) :=
  let q := linForward x s.W_q.value s.b_q.value
  let k := linForward x s.W_k.value s.b_k.value
  let v := linForward x s.W_v.value s.b_v.value
  let qh : Heads H T dk := split_heads q
  let kh : Heads H T dk := split_heads k
  let vh : Heads H T dk := split_heads v
  let res := scaled_dot_product_attention qh kh vh mask
  let head_layers : Fin H → Param T dk := fun h => ⟨res.1 h, 0⟩
  let concatOut : Mat T (H * dk) := combine_heads fun h => (head_layers h).value
  let outVal := linForward concatOut s.W_o.value s.b_o.value
  ({ s with
      linear_q := ⟨some x, some q, s.linear_q.grad⟩
      linear_k := ⟨some x, some k, s.linear_k.grad⟩
      linear_v := ⟨some x, some v, s.linear_v.grad⟩
      linear_out := ⟨some concatOut, some outVal, s.linear_out.grad⟩
      qh := some qh
      kh := some kh
      vh := some vh
      attn := some res.2
      mask := mask
      concat := some ⟨head_layers, concatOut, 0⟩ },
    outVal, res.2)

/-- The out-of-scope consumer of the block output depositing the upstream
gradient into the output projection's gradient slot (spec section 4.6,
precondition). -/
noncomputable def depositGrad {H dk T : ℕ} (s : MHA H dk T) (g : Mat T (H * dk)) :
    MHA H dk T :=
  { s with linear_out := ⟨s.linear_out.X, s.linear_out.output, g⟩ }

/-- Lines 117–119: softmax backward,
`grad_scores = attn * (grad_attn - (grad_attn * attn).sum(dim=-1, keepdim=True))`. -/
noncomputable def softmaxBackward {H T : ℕ} (attn grad_attn : Fin H → Mat T T) :
    Fin H → Mat T T :=
  fun h i j => attn h i j * (grad_attn h i j - ∑ l, grad_attn h i l * attn h i l)

/-- Lines 120–121: `grad_scores.masked_fill(self.mask == 0, 0)` when a mask
was cached by the last forward call. -/
noncomputable def maskGradZero {H T : ℕ} (mask : Option (Mat T T))
    (gs : Fin H → Mat T T) : Fin H → Mat T T :=
  match mask with
  | none => gs
  | some m => fun h i j => if m i j = 0 then 0 else gs h i j

/-- `backward` (lines 104–140): backprop the output projection and the
concat adapter, stack the per-head gradients, run the attention/softmax/
scaling backward formulas, merge heads, override the q/k/v projections'
gradient slots, and backprop the three projections (accumulating into the
Parameters' and the bound input layer's gradient accumulators).  The
`Linear`/`Concat` backward rules are Modelled from the spec (section 6);
dereferencing a still-`None` cache yields `none`. -/
noncomputable def mha_backward {H dk T : ℕ} (s : MHA H dk T) : Option (MHA H dk T) :=
  match s.linear_out.X, s.concat, s.qh, s.kh, s.vh, s.attn,
      s.linear_q.X, s.linear_k.X, s.linear_v.X with
  | some Xo, some cSt, some qh, some kh, some vh, some attn,
      some Xq, some Xk, some Xv =>
    let g := s.linear_out.grad
    let cGrad := cSt.grad + g * (s.W_o.value)ᵀ
    let headGrads : Heads H T dk := fun h => (cSt.layers_list h).grad + split_heads cGrad h
    let stacked := headGrads
    let grad_attn : Fin H → Mat T T := fun h => stacked h * (vh h)ᵀ
    let grad_vh : Heads H T dk := fun h => (attn h)ᵀ * stacked h
    let grad_scores := maskGradZero s.mask (softmaxBackward attn grad_attn)
    let grad_qh : Heads H T dk := fun h i j =>
      (grad_scores h * kh h) i j * (1 / Real.sqrt (dk : ℝ))
    let grad_kh : Heads H T dk := fun h i j =>
      ((grad_scores h)ᵀ * qh h) i j * (1 / Real.sqrt (dk : ℝ))
    let grad_q := combine_heads grad_qh
    let grad_k := combine_heads grad_kh
    let grad_v := combine_heads grad_vh
    some { s with
      W_o := ⟨s.W_o.value, s.W_o.grad + Xoᵀ * g⟩
      b_o := ⟨s.b_o.value, s.b_o.grad + colSum g⟩
      concat := some ⟨fun h => ⟨(cSt.layers_list h).value, headGrads h⟩, cSt.output, cGrad⟩
      linear_q := ⟨s.linear_q.X, s.linear_q.output, grad_q⟩
      linear_k := ⟨s.linear_k.X, s.linear_k.output, grad_k⟩
      linear_v := ⟨s.linear_v.X, s.linear_v.output, grad_v⟩
      W_v := ⟨s.W_v.value, s.W_v.grad + Xvᵀ * grad_v⟩
      b_v := ⟨s.b_v.value, s.b_v.grad + colSum grad_v⟩
      W_k := ⟨s.W_k.value, s.W_k.grad + Xkᵀ * grad_k⟩
      b_k := ⟨s.b_k.value, s.b_k.grad + colSum grad_k⟩
      W_q := ⟨s.W_q.value, s.W_q.grad + Xqᵀ * grad_q⟩
      b_q := ⟨s.b_q.value, s.b_q.grad + colSum grad_q⟩
      x_grad := s.x_grad + grad_v * (s.W_v.value)ᵀ + grad_k * (s.W_k.value)ᵀ
        + grad_q * (s.W_q.value)ᵀ }
  | _, _, _, _, _, _, _, _, _ => none

/-- Modelled from the spec: `Input.step` of the missing `layers.py` — the
in-place update `value -= lr * grad` (spec section 3), after which the
gradient is consumed (zeroed): this is what makes the double application in
spec section 4.7 ("Projections and their underlying Parameters are
updated") "double-counted but idempotent", makes a later `step` "with stale
or zero gradients" a "no-op-equivalent (zero-magnitude) update" (section
4.7), and makes the section 8 update law exact. -/
noncomputable def param_step (lr : ℝ) {r c : ℕ} (p : Param r c) : Param r c :=
  ⟨p.value - lr • p.grad, 0⟩

/-- `step` (lines 145–158): the twelve `step` calls in source order — the
four projection wrappers first (each stepping its aliased weight and bias
Parameters), then the eight raw Parameters. -/
noncomputable def mha_step {H dk T : ℕ} (s : MHA H dk T) (lr : ℝ) : MHA H dk T :=
  let s1 := { s with W_q := param_step lr s.W_q, b_q := param_step lr s.b_q }
  let s2 := { s1 with W_k := param_step lr s1.W_k, b_k := param_step lr s1.b_k }
  let s3 := { s2 with W_v := param_step lr s2.W_v, b_v := param_step lr s2.b_v }
  let s4 := { s3 with W_o := param_step lr s3.W_o, b_o := param_step lr s3.b_o }
  let s5 := { s4 with W_k := param_step lr s4.W_k }
  let s6 := { s5 with W_q := param_step lr s5.W_q }
  let s7 := { s6 with W_v := param_step lr s6.W_v }
  let s8 := { s7 with W_o := param_step lr s7.W_o }
  let s9 := { s8 with b_k := param_step lr s8.b_k }
  let s10 := { s9 with b_q := param_step lr s9.b_q }
  let s11 := { s10 with b_v := param_step lr s10.b_v }
  { s11 with b_o := param_step lr s11.b_o }

/-- `clear_grad` (lines 161–175): reset the gradient accumulators of the
four projection wrappers, then `self.concat.clear_grad()` — which
dereferences the cached `concat` field and therefore fails (`none`) when no
forward call has populated it — then the eight raw Parameters. -/
noncomputable def mha_clear_grad {H dk T : ℕ} (s : MHA H dk T) : Option (MHA H dk T) :=
  match s.concat with
  | none => none
  | some cSt =>
    some { s with
      linear_q := ⟨s.linear_q.X, s.linear_q.output, 0⟩
      linear_k := ⟨s.linear_k.X, s.linear_k.output, 0⟩
      linear_v := ⟨s.linear_v.X, s.linear_v.output, 0⟩
      linear_out := ⟨s.linear_out.X, s.linear_out.output, 0⟩
      concat := some ⟨fun h => ⟨(cSt.layers_list h).value, 0⟩, cSt.output, 0⟩
      W_q := ⟨s.W_q.value, 0⟩
      b_q := ⟨s.b_q.value, 0⟩
      W_k := ⟨s.W_k.value, 0⟩
      b_k := ⟨s.b_k.value, 0⟩
      W_v := ⟨s.W_v.value, 0⟩
      b_v := ⟨s.b_v.value, 0⟩
      W_o := ⟨s.W_o.value, 0⟩
      b_o := ⟨s.b_o.value, 0⟩ }

/-- Helper: the two aliased `step` applications a Parameter receives (once
through its projection wrapper, once directly) amount to a single exact
update `value - lr • grad`, the second application being zero-magnitude. -/
theorem param_step_twice (lr : ℝ) {r c : ℕ} (p : Param r c) :
    (param_step lr (param_step lr p)).value = p.value - lr • p.grad := by
  simp [param_step]

/-- C1: for every run of one training iteration — `forward`, then `backward`
with an upstream gradient deposited in the output projection's gradient
slot, then `step(lr)` — each of the 8 Parameters ends with new value equal
to its old value minus `lr` times the gradient `backward` computed for it,
exactly once, even though `step` updates both the 4 projection wrappers and
the 8 raw Parameters. -/
theorem C1_update_law_exact {H dk T : ℕ} (s : MHA H dk T) (x : Mat T (H * dk))
    (m : Option (Mat T T)) (g : Mat T (H * dk)) (lr : ℝ) :
    ∃ s2 : MHA H dk T,
      mha_backward (depositGrad (mha_forward s x m).1 g) = some s2 ∧
      (mha_step s2 lr).W_q.value = s.W_q.value - lr • s2.W_q.grad ∧
      (mha_step s2 lr).b_q.value = s.b_q.value - lr • s2.b_q.grad ∧
      (mha_step s2 lr).W_k.value = s.W_k.value - lr • s2.W_k.grad ∧
      (mha_step s2 lr).b_k.value = s.b_k.value - lr • s2.b_k.grad ∧
      (mha_step s2 lr).W_v.value = s.W_v.value - lr • s2.W_v.grad ∧
      (mha_step s2 lr).b_v.value = s.b_v.value - lr • s2.b_v.grad ∧
      (mha_step s2 lr).W_o.value = s.W_o.value - lr • s2.W_o.grad ∧
      (mha_step s2 lr).b_o.value = s.b_o.value - lr • s2.b_o.grad := by
  refine ⟨_, rfl, param_step_twice lr _, param_step_twice lr _, param_step_twice lr _,
    param_step_twice lr _, param_step_twice lr _, param_step_twice lr _,
    param_step_twice lr _, param_step_twice lr _⟩

/-- C2: in `backward`, the gradient with respect to the pre-softmax scores
is computed per row as `attn * (grad_attn - rowsum(grad_attn * attn))`, the
row sum reducing along the key (last) axis and broadcast back, and
afterwards every position where the cached mask equals 0 has its
`grad_scores` entry set to exactly 0 (not negative infinity).  `attn` is
the tensor cached by the most recent forward call, and
`maskGradZero`/`softmaxBackward` are exactly the line 117–121 computation
that `mha_backward` applies. -/
theorem C2_softmax_backward_mask {H dk T : ℕ} (s : MHA H dk T) (x : Mat T (H * dk))
    (m : Mat T T) (g : Mat T (H * dk)) :
    ∃ (s2 : MHA H dk T) (attn : Fin H → Mat T T),
      (depositGrad (mha_forward s x (some m)).1 g).attn = some attn ∧
      (depositGrad (mha_forward s x (some m)).1 g).mask = some m ∧
      mha_backward (depositGrad (mha_forward s x (some m)).1 g) = some s2 ∧
      (∀ grad_attn : Fin H → Mat T T, ∀ h i j,
        maskGradZero (some m) (softmaxBackward attn grad_attn) h i j
          = if m i j = 0 then 0
            else attn h i j * (grad_attn h i j - ∑ l, grad_attn h i l * attn h i l)) ∧
      (∀ grad_attn : Fin H → Mat T T, ∀ h i j, m i j = 0 →
        maskGradZero (some m) (softmaxBackward attn grad_attn) h i j = 0) := by
  refine ⟨_, _, rfl, rfl, rfl, fun ga h i j => rfl, fun ga h i j h0 => ?_⟩
  show (if m i j = 0 then (0 : ℝ) else softmaxBackward _ ga h i j) = 0
  rw [if_pos h0]

/-- Helper: dividing every entry of a head tensor by a scalar is the same
as multiplying by its reciprocal (the form the source writes with
`factor = 1.0 / math.sqrt(self.d_k)`), before merging heads. -/
theorem combine_heads_entry_div {H dk T : ℕ} (A : Heads H T dk) (c : ℝ) :
    combine_heads (fun h i j => A h i j / c)
      = combine_heads (fun h i j => A h i j * (1 / c)) := by
  unfold combine_heads
  funext t j
  exact (mul_one_div _ _).symm

/-- C3: in `backward`, with `stacked` the per-head upstream gradients
stacked into a `num_heads × T × d_k` tensor, the computed gradients
satisfy, per head, `grad_attn = stacked * vhᵀ`, `grad_vh = attnᵀ * stacked`,
`grad_qh = (grad_scores * kh) / sqrt(d_k)` and
`grad_kh = (grad_scoresᵀ * qh) / sqrt(d_k)`, using the `qh, kh, vh, attn`
tensors cached by the most recent forward call (the merged `grad_qh`,
`grad_kh`, `grad_vh` being what `backward` deposits into the q/k/v
projections' gradient slots). -/
theorem C3_backward_gradient_formulas {H dk T : ℕ} (s : MHA H dk T)
    (x : Mat T (H * dk)) (m : Option (Mat T T)) (g : Mat T (H * dk)) :
    ∃ (s2 : MHA H dk T) (qh kh vh : Heads H T dk) (attn : Fin H → Mat T T)
      (cSt : ConcatState H dk T),
      (depositGrad (mha_forward s x m).1 g).qh = some qh ∧
      (depositGrad (mha_forward s x m).1 g).kh = some kh ∧
      (depositGrad (mha_forward s x m).1 g).vh = some vh ∧
      (depositGrad (mha_forward s x m).1 g).attn = some attn ∧
      (depositGrad (mha_forward s x m).1 g).concat = some cSt ∧
      mha_backward (depositGrad (mha_forward s x m).1 g) = some s2 ∧
      (let stacked : Heads H T dk :=
        fun h => (cSt.layers_list h).grad + split_heads (cSt.grad + g * (s.W_o.value)ᵀ) h
       let grad_attn : Fin H → Mat T T := fun h => stacked h * (vh h)ᵀ
       let grad_scores := maskGradZero m (softmaxBackward attn grad_attn)
       s2.linear_v.grad = combine_heads (fun h => (attn h)ᵀ * stacked h) ∧
       s2.linear_q.grad
         = combine_heads (fun h i j => (grad_scores h * kh h) i j / Real.sqrt (dk : ℝ)) ∧
       s2.linear_k.grad
         = combine_heads (fun h i j => ((grad_scores h)ᵀ * qh h) i j / Real.sqrt (dk : ℝ))) := by
  refine ⟨_, _, _, _, _, _, rfl, rfl, rfl, rfl, rfl, rfl, rfl, ?_, ?_⟩
  · rw [combine_heads_entry_div]
    rfl
  · rw [combine_heads_entry_div]
    rfl

/-- C4: `scaled_dot_product_attention(q, k, v, mask)` computes
`scores = (q * kᵀ) / sqrt(d_k)`; every position where the supplied mask
equals 0 is set to negative infinity (`⊥`) before the softmax — so its
resulting attention weight is 0 — while positions where the mask is nonzero
are unchanged; softmax is applied along the last (key) axis; and the
function returns the pair `(attn_weights * v, attn_weights)`. -/
theorem C4_scaled_dot_product_attention_spec {H T dk : ℕ} (q k v : Heads H T dk)
    (m : Mat T T) :
    (∀ h i j, attnScores q k h i j = (q h * (k h)ᵀ) i j / Real.sqrt (dk : ℝ)) ∧
    (∀ h i j, m i j = 0 →
      maskScoresNegInf (some m) (attnScores q k) h i j = (⊥ : WithBot ℝ)) ∧
    (∀ h i j, ¬ m i j = 0 →
      maskScoresNegInf (some m) (attnScores q k) h i j
        = ((attnScores q k h i j : ℝ) : WithBot ℝ)) ∧
    (∀ h i j, (scaled_dot_product_attention q k v (some m)).2 h i j
        = softmaxRow (maskScoresNegInf (some m) (attnScores q k) h i) j) ∧
    (∀ h, (scaled_dot_product_attention q k v (some m)).1 h
        = (scaled_dot_product_attention q k v (some m)).2 h * v h) ∧
    (∀ h i j, m i j = 0 → (scaled_dot_product_attention q k v (some m)).2 h i j = 0) := by
  refine ⟨fun h i j => rfl, fun h i j h0 => if_pos h0, fun h i j h0 => if_neg h0,
    fun h i j => rfl, fun h => rfl, fun h i j h0 => ?_⟩
  show softmaxRow (maskScoresNegInf (some m) (attnScores q k) h i) j = 0
  have hbot : maskScoresNegInf (some m) (attnScores q k) h i j = (⊥ : WithBot ℝ) :=
    if_pos h0
  unfold softmaxRow
  rw [hbot]
  simp [expExt]

/-- C5: for every tensor `x` of shape `T × d_model`,
`combine_heads (split_heads x) = x` exactly: the two operations are pure
shape transforms that are structural inverses and change no values. -/
theorem C5_combine_split_roundtrip {H dk T : ℕ} (x : Mat T (H * dk)) :
    combine_heads (split_heads x) = x := by
  funext t j
  show x t ⟨j.val / dk * dk + j.val % dk, _⟩ = x t j
  congr 1
  exact Fin.ext (Nat.div_add_mod' j.val dk)

/-- C6: for every input of shape `T × D` with `D = d_model = H * dk` and
`num_heads = H` dividing `D`, `forward` returns an output tensor of shape
`T × D` and attention weights of shape `num_heads × T × T`. -/
theorem C6_shape_law {H dk T : ℕ} (s : MHA H dk T) (x : Mat T (H * dk))
    (m : Option (Mat T T)) :
    matRows (mha_forward s x m).2.1 = T ∧
    matCols (mha_forward s x m).2.1 = H * dk ∧
    attnShape (mha_forward s x m).2.2 = (H, T, T) :=
  ⟨rfl, rfl, rfl⟩

/-- C7: construction fails (assertion violation, `none`) if and only if
`d_model` is not evenly divisible by `num_heads`; when it succeeds, `d_k`
is fixed to `d_model / num_heads`, and the fresh block allocates the 8
Parameters (with the given random values and zero gradients) plus the 4
projection wrappers (inputs unbound) with every cache unset. -/
theorem C7_construction_contract (D Hn : ℕ) :
    (initCheck D Hn = none ↔ ¬ Hn ∣ D) ∧
    (∀ d, initCheck D Hn = some d → d = D / Hn) ∧
    (Hn ∣ D → ∀ (T : ℕ) (wq wk wv wo : Mat (Hn * (D / Hn)) (Hn * (D / Hn)))
        (bq bk bv bo : Mat 1 (Hn * (D / Hn))),
      mhaDModel (initMHA Hn (D / Hn) T wq wk wv wo bq bk bv bo) = D ∧
      mhaNumHeads (initMHA Hn (D / Hn) T wq wk wv wo bq bk bv bo) = Hn ∧
      mhaDK (initMHA Hn (D / Hn) T wq wk wv wo bq bk bv bo) = D / Hn ∧
      (initMHA Hn (D / Hn) T wq wk wv wo bq bk bv bo).W_q = ⟨wq, 0⟩ ∧
      (initMHA Hn (D / Hn) T wq wk wv wo bq bk bv bo).b_q = ⟨bq, 0⟩ ∧
      (initMHA Hn (D / Hn) T wq wk wv wo bq bk bv bo).W_k = ⟨wk, 0⟩ ∧
      (initMHA Hn (D / Hn) T wq wk wv wo bq bk bv bo).b_k = ⟨bk, 0⟩ ∧
      (initMHA Hn (D / Hn) T wq wk wv wo bq bk bv bo).W_v = ⟨wv, 0⟩ ∧
      (initMHA Hn (D / Hn) T wq wk wv wo bq bk bv bo).b_v = ⟨bv, 0⟩ ∧
      (initMHA Hn (D / Hn) T wq wk wv wo bq bk bv bo).W_o = ⟨wo, 0⟩ ∧
      (initMHA Hn (D / Hn) T wq wk wv wo bq bk bv bo).b_o = ⟨bo, 0⟩ ∧
      (initMHA Hn (D / Hn) T wq wk wv wo bq bk bv bo).linear_q.X = none ∧
      (initMHA Hn (D / Hn) T wq wk wv wo bq bk bv bo).linear_k.X = none ∧
      (initMHA Hn (D / Hn) T wq wk wv wo bq bk bv bo).linear_v.X = none ∧
      (initMHA Hn (D / Hn) T wq wk wv wo bq bk bv bo).linear_out.X = none ∧
      (initMHA Hn (D / Hn) T wq wk wv wo bq bk bv bo).concat = none) := by
  refine ⟨?_, ?_, ?_⟩
  · by_cases h : D % Hn = 0
    · simp only [initCheck, h, if_true, reduceCtorEq, false_iff, not_not]
      exact Nat.dvd_of_mod_eq_zero h
    · simp only [initCheck, h, if_false, true_iff]
      intro hd
      rcases hd with ⟨c, rfl⟩
      exact h (Nat.mul_mod_right Hn c)
  · intro d hd
    by_cases h : D % Hn = 0
    · simp only [initCheck, h, if_true, Option.some.injEq] at hd
      exact hd.symm
    · simp only [initCheck, h, if_false] at hd
      exact Option.noConfusion hd
  · intro hdvd T wq wk wv wo bq bk bv bo
    exact ⟨Nat.mul_div_cancel' hdvd, rfl, rfl, rfl, rfl, rfl, rfl, rfl, rfl, rfl, rfl,
      rfl, rfl, rfl, rfl, rfl⟩

/-- C8: two `forward` calls on the same block with identical input tensor
and identical mask, with no intervening `step` (the 8 Parameters unchanged
between the calls), produce bit-identical output and attention weights. -/
theorem C8_forward_deterministic {H dk T : ℕ} (s : MHA H dk T) (x : Mat T (H * dk))
    (m : Option (Mat T T)) :
    (mha_forward (mha_forward s x m).1 x m).2 = (mha_forward s x m).2 := rfl

/-- C9: on a freshly constructed block on which `forward` has never been
called, `backward()` and `clear_grad()` dereference a still-`None` cache
and raise an error (`none`) instead of completing silently. -/
theorem C9_fresh_block_errors (H dk T : ℕ)
    (wq wk wv wo : Mat (H * dk) (H * dk)) (bq bk bv bo : Mat 1 (H * dk)) :
    mha_backward (initMHA H dk T wq wk wv wo bq bk bv bo) = none ∧
    mha_clear_grad (initMHA H dk T wq wk wv wo bq bk bv bo) = none :=
  ⟨rfl, rfl⟩

/-- C10: `forward` mutates only the block's cached state
(`qh, kh, vh, attn, mask, concat`) and the four projections' bound input
and cached output; it never changes the 8 Parameters (values or gradient
accumulators), the projections' gradient slots, the external input layer's
gradient accumulator, or the configuration `d_model`, `num_heads`, `d_k`. -/
theorem C10_forward_frame {H dk T : ℕ} (s : MHA H dk T) (x : Mat T (H * dk))
    (m : Option (Mat T T)) :
    (mha_forward s x m).1.W_q = s.W_q ∧
    (mha_forward s x m).1.b_q = s.b_q ∧
    (mha_forward s x m).1.W_k = s.W_k ∧
    (mha_forward s x m).1.b_k = s.b_k ∧
    (mha_forward s x m).1.W_v = s.W_v ∧
    (mha_forward s x m).1.b_v = s.b_v ∧
    (mha_forward s x m).1.W_o = s.W_o ∧
    (mha_forward s x m).1.b_o = s.b_o ∧
    (mha_forward s x m).1.linear_q.grad = s.linear_q.grad ∧
    (mha_forward s x m).1.linear_k.grad = s.linear_k.grad ∧
    (mha_forward s x m).1.linear_v.grad = s.linear_v.grad ∧
    (mha_forward s x m).1.linear_out.grad = s.linear_out.grad ∧
    (mha_forward s x m).1.x_grad = s.x_grad ∧
    mhaDModel (mha_forward s x m).1 = mhaDModel s ∧
    mhaNumHeads (mha_forward s x m).1 = mhaNumHeads s ∧
    mhaDK (mha_forward s x m).1 = mhaDK s :=
  ⟨rfl, rfl, rfl, rfl, rfl, rfl, rfl, rfl, rfl, rfl, rfl, rfl, rfl, rfl, rfl, rfl⟩
